import Mathlib

/-!
Verification development for the hft-market-maker repository.

The definitions below are a shallow embedding of the C++ sources:
prices, quantities and clock samples are modelled as exact rationals
(the source uses `double` and `std::chrono` time points), fallible
venue calls are oracle inputs supplied through an environment record,
and the stateful classes become explicit state-passing functions.
Sequential composition replaces the source's short-lived parallel
threads: the two legs of a reprice touch disjoint state fields and
their metric increments commute, so the interleaving is serializable.
-/

namespace MarketMaker

/-- `enum class OrderSide` from include/types.h. -/
inductive OrderSide where
  | BUY
  | SELL
deriving DecidableEq, Repr

/-- `struct Order` from include/types.h, restricted to the fields the
manager reads or writes (`src/order_manager.cpp`). -/
structure Order where
  order_id : String
  client_order_id : String
  side : OrderSide
  price : ℚ
  quantity : ℚ
deriving DecidableEq, Repr

/-- The strategy parameters of `struct Config` (include/config.h) used by
`OrderManager`.  `order_update_cooldown` is in milliseconds, as in the
source (`std::chrono::milliseconds order_update_cooldown{100}`). -/
structure Config where
  symbol : String
  spread_percentage : ℚ
  order_size : ℚ
  price_precision : ℕ
  order_update_cooldown : ℚ
deriving DecidableEq, Repr

/-- `struct LatencyMetrics` from include/types.h (counter and latency
fields; `start_time` and `reconnect_count` are unused by the manager's
reprice path and omitted). -/
structure LatencyMetrics where
  avg_order_latency_ms : ℚ := 0
  max_order_latency_ms : ℚ := 0
  min_order_latency_ms : ℚ := 999999
  avg_reaction_latency_ms : ℚ := 0
  max_reaction_latency_ms : ℚ := 0
  min_reaction_latency_ms : ℚ := 999999
  total_orders : ℕ := 0
  successful_orders : ℕ := 0
  failed_orders : ℕ := 0
deriving DecidableEq, Repr

/-- `LatencyMetrics::update_latency` from include/types.h. -/
def LatencyMetrics.update_latency (m : LatencyMetrics) (latency_ms : ℚ) : LatencyMetrics :=
  { m with
    avg_order_latency_ms := (m.avg_order_latency_ms * m.total_orders + latency_ms) / (m.total_orders + 1)
    max_order_latency_ms := max m.max_order_latency_ms latency_ms
    min_order_latency_ms := min m.min_order_latency_ms latency_ms
    total_orders := m.total_orders + 1 }

/-- `LatencyMetrics::update_reaction_latency` from include/types.h. -/
def LatencyMetrics.update_reaction_latency (m : LatencyMetrics) (latency_ms : ℚ) : LatencyMetrics :=
  { m with
    avg_reaction_latency_ms :=
      if m.total_orders = 0 then latency_ms
      else (m.avg_reaction_latency_ms * m.total_orders + latency_ms) / (m.total_orders + 1)
    max_reaction_latency_ms := max m.max_reaction_latency_ms latency_ms
    min_reaction_latency_ms := min m.min_reaction_latency_ms latency_ms }

/-- The mutable state of `class OrderManager`
(include/order_manager.h lines 44-52). -/
structure OMState where
  active_bid_order_ : Option Order
  active_ask_order_ : Option Order
  last_mid_price_ : ℚ
  last_order_update_ : ℚ
  metrics_ : LatencyMetrics
deriving DecidableEq, Repr

/-- Freshly constructed manager: no active orders,
`last_mid_price_{0.0}`, default-constructed (epoch = 0) update time. -/
def OMState.initial : OMState :=
  { active_bid_order_ := none
    active_ask_order_ := none
    last_mid_price_ := 0
    last_order_update_ := 0
    metrics_ := {} }

/-- An operation issued to the exchange (`exchange_->cancel_order` /
`exchange_->place_limit_order` in src/order_manager.cpp). -/
inductive ExchOp where
  | cancel (symbol : String) (order_id : String)
  | place (symbol : String) (side : OrderSide) (price : ℚ) (quantity : ℚ)
      (client_order_id : String)
deriving DecidableEq, Repr

def ExchOp.isPlace : ExchOp → Bool
  | .place _ _ _ _ _ => true
  | .cancel _ _ => false

/-- Oracle inputs consumed during one reprice cycle: the venue's answers
to the two placements (`some order_id` on acceptance, `none` on failure),
the cancel outcomes, the `system_clock` count and random draw feeding
`generate_client_order_id` for each leg, and the two `steady_clock`
samples the cycle reads (`now` at entry / `should_update_orders`, `done`
at lines 186-187 and in `update_metrics`), in milliseconds. -/
structure Env where
  cancel_bid_ok : Bool
  cancel_ask_ok : Bool
  place_bid_result : Option String
  place_ask_result : Option String
  bid_epoch : ℕ
  bid_rand : ℕ
  ask_epoch : ℕ
  ask_rand : ℕ
  now : ℚ
  done : ℚ
deriving DecidableEq, Repr

/-- Decimal digits of `n`, most significant first, by fuelled division;
`fuel > n` always suffices. -/
def decDigitsAux : ℕ → ℕ → List Char
  | 0, _ => []
  | fuel + 1, n =>
      if n < 10 then [Nat.digitChar n]
      else decDigitsAux fuel (n / 10) ++ [Nat.digitChar (n % 10)]

/-- Decimal rendering of a natural number, the model of streaming an
integer into a `std::stringstream` (most significant digit first). -/
def decRepr (n : ℕ) : String :=
  (decDigitsAux (n + 1) n).asString

/-- `OrderManager::generate_client_order_id` (src/order_manager.cpp
lines 389-400): `MM_` + side tag + `system_clock` epoch count + `_` +
draw from `uniform_int_distribution<>(100000, 999999)`.  The clock count
and the random draw are oracle inputs. -/
def generate_client_order_id (side : OrderSide) (epoch : ℕ) (rand : ℕ) : String :=
  "MM_" ++ (match side with | OrderSide.BUY => "BID_" | OrderSide.SELL => "ASK_")
    ++ decRepr epoch ++ "_" ++ decRepr rand

/-- `std::round`: half-way cases round away from zero. -/
def cppRound (x : ℚ) : ℤ :=
  if 0 ≤ x then ⌊x + 1/2⌋ else ⌈x - 1/2⌉

/-- `OrderManager::format_price` (src/order_manager.cpp lines 272-275):
`std::round(price * 10^precision) / 10^precision`. -/
def format_price (cfg : Config) (price : ℚ) : ℚ :=
  let multiplier : ℚ := 10 ^ cfg.price_precision
  (cppRound (price * multiplier) : ℚ) / multiplier

/-- `OrderManager::place_order` (src/order_manager.cpp lines 282-315):
generate a client id, issue the placement; on failure increment
`failed_orders` and leave the legs unchanged, on success store the
returned order in the matching leg. -/
def place_order (cfg : Config) (side : OrderSide) (price : ℚ) (quantity : ℚ)
    (epoch rand : ℕ) (venue_result : Option String) (s : OMState) :
    Bool × OMState × ExchOp :=
  let client_order_id := generate_client_order_id side epoch rand
  let op := ExchOp.place cfg.symbol side price quantity client_order_id
  match venue_result with
  | none =>
      (false,
       { s with metrics_ :=
          { s.metrics_ with failed_orders := s.metrics_.failed_orders + 1 } },
       op)
  | some oid =>
      let o : Order :=
        { order_id := oid, client_order_id := client_order_id,
          side := side, price := price, quantity := quantity }
      match side with
      | OrderSide.BUY => (true, { s with active_bid_order_ := some o }, op)
      | OrderSide.SELL => (true, { s with active_ask_order_ := some o }, op)

/-- `OrderManager::update_metrics` (src/order_manager.cpp lines 353-387):
record execution and reaction latency and then increment
`successful_orders` by 2 ("Both bid and ask"), unconditionally. -/
def update_metrics (s : OMState) (execution_latency_ms reaction_latency_ms : ℚ) :
    OMState :=
  let m := (s.metrics_.update_latency execution_latency_ms).update_reaction_latency
    reaction_latency_ms
  { s with metrics_ := { m with successful_orders := m.successful_orders + 2 } }

/-- `PRICE_CHANGE_THRESHOLD = 0.0001` (src/order_manager.cpp line 71). -/
def PRICE_CHANGE_THRESHOLD : ℚ := 1/10000

/-- The skip decision of src/order_manager.cpp lines 70-101: with both
legs active, skip unless the relative mid change exceeds
`PRICE_CHANGE_THRESHOLD`; with any leg missing, never skip. -/
def hysteresis_skip (s : OMState) (mid_price : ℚ) : Bool :=
  match s.active_bid_order_, s.active_ask_order_ with
  | some _, some _ =>
      let price_change_frac := |mid_price - s.last_mid_price_| / s.last_mid_price_
      ! decide (price_change_frac > PRICE_CHANGE_THRESHOLD)
  | _, _ => false

/-- The committed part of a reprice cycle
(src/order_manager.cpp lines 103-207): cancel both legs (in parallel)
iff both exist and clear them (lines 124-155), run the two placements
(lines 161-184), stamp `last_mid_price_` / `last_order_update_`
(lines 186-187), and record metrics (line 204). -/
def execute_reprice (cfg : Config) (env : Env) (s : OMState)
    (mid_price : ℚ) (orderbook_time : ℚ) : Bool × OMState × List ExchOp :=
  let bid_price := format_price cfg (mid_price * (1 - cfg.spread_percentage))
  let ask_price := format_price cfg (mid_price * (1 + cfg.spread_percentage))
  let cancelStep : OMState × List ExchOp :=
    match s.active_bid_order_, s.active_ask_order_ with
    | some b, some a =>
        ({ s with active_bid_order_ := none, active_ask_order_ := none },
         [ExchOp.cancel cfg.symbol b.order_id, ExchOp.cancel cfg.symbol a.order_id])
    | _, _ => (s, [])
  let bidStep := place_order cfg OrderSide.BUY bid_price cfg.order_size
    env.bid_epoch env.bid_rand env.place_bid_result cancelStep.1
  let askStep := place_order cfg OrderSide.SELL ask_price cfg.order_size
    env.ask_epoch env.ask_rand env.place_ask_result bidStep.2.1
  let s2 := { askStep.2.1 with last_mid_price_ := mid_price, last_order_update_ := env.done }
  let s3 := update_metrics s2 (env.done - env.now) (env.done - orderbook_time)
  (bidStep.1 && askStep.1, s3, cancelStep.2 ++ [bidStep.2.2, askStep.2.2])

/-- `OrderManager::place_market_maker_orders`
(src/order_manager.cpp lines 23-207).  Returns the function's boolean
result, the successor state, and the list of exchange operations issued
(cancels first, then the bid and ask placements). -/
def place_market_maker_orders (cfg : Config) (env : Env) (s : OMState)
    (mid_price : ℚ) (orderbook_time : ℚ) : Bool × OMState × List ExchOp :=
  if mid_price ≤ 0 then (false, s, [])
  else if hysteresis_skip s mid_price then (true, s, [])
  else execute_reprice cfg env s mid_price orderbook_time

/-- `OrderManager::should_update_orders` (src/order_manager.cpp lines
333-351): false when the mid moved by less than `0.00001` (absolute), or
when the time since the last order update is below the cooldown.
(`duration_cast<milliseconds>(d) < cooldown` agrees with `d < cooldown`
for an integral cooldown and monotone clock samples.) -/
def should_update_orders (cfg : Config) (s : OMState) (new_mid_price : ℚ)
    (now : ℚ) : Bool :=
  if |new_mid_price - s.last_mid_price_| < 1/100000 then false
  else if now - s.last_order_update_ < cfg.order_update_cooldown then false
  else true

/-- `OrderManager::update_orders_if_needed` (src/order_manager.cpp lines
245-254). -/
def update_orders_if_needed (cfg : Config) (env : Env) (s : OMState)
    (new_mid_price : ℚ) (orderbook_time : ℚ) : Bool × OMState × List ExchOp :=
  if ! should_update_orders cfg s new_mid_price env.now then (true, s, [])
  else place_market_maker_orders cfg env s new_mid_price orderbook_time

/-! ### Order-book decoder and mid-price publication
(`BinanceExchange::process_binance_orderbook`, src/binance_exchange.cpp
lines 498-547, composed with `MarketMakerBotV2::handle_orderbook_update`
and `MarketMakerBotV2::update_mid_price`, src/market_maker.cpp). -/

/-- `struct PriceLevel` from include/types.h. -/
structure PriceLevel where
  price : ℚ
  quantity : ℚ
deriving DecidableEq, Repr

/-- `struct OrderBook` from include/types.h (receive timestamp omitted:
no claim reads it). -/
structure OrderBook where
  bids : List PriceLevel
  asks : List PriceLevel
deriving DecidableEq, Repr

/-- A parsed depth payload: a JSON document that has both a `bids` and an
`asks` member, each element already converted by `std::stod` from its
(price-string, quantity-string) pair (elements with fewer than two
entries are dropped during parsing and never reach the lists). -/
structure DepthPayload where
  bids : List PriceLevel
  asks : List PriceLevel
deriving DecidableEq, Repr

/-- The bot state touched by the price pipeline
(`MarketMakerBotV2`: `current_orderbook_`, `current_mid_price_`,
`price_changed_`). -/
structure BotState where
  current_orderbook_ : OrderBook
  current_mid_price_ : ℚ
  price_changed_ : Bool
deriving DecidableEq, Repr

/-- `MarketMakerBotV2::update_mid_price` (src/market_maker.cpp lines
204-229): with both sides non-empty, store the new mid unconditionally
(`current_mid_price_.exchange`), and signal `price_changed_` (and notify
the worker) iff the mid moved by more than `0.00001`.  The returned
boolean is that notification. -/
def update_mid_price (s : BotState) : BotState × Bool :=
  match s.current_orderbook_.bids, s.current_orderbook_.asks with
  | b0 :: _, a0 :: _ =>
      let new_mid_price := (b0.price + a0.price) / 2
      let old_mid_price := s.current_mid_price_
      let s' := { s with current_mid_price_ := new_mid_price }
      if |old_mid_price - new_mid_price| > 1/100000 then
        ({ s' with price_changed_ := true }, true)
      else (s', false)
  | _, _ => (s, false)

/-- `MarketMakerBotV2::handle_orderbook_update` (src/market_maker.cpp):
store the book, then recompute the mid. -/
def handle_orderbook_update (s : BotState) (ob : OrderBook) : BotState × Bool :=
  update_mid_price { s with current_orderbook_ := ob }

/-- `BinanceExchange::process_binance_orderbook` (src/binance_exchange.cpp
lines 498-547) composed with the bot's orderbook handler: every payload
carrying `bids` and `asks` members is turned into an `OrderBook` and
handed to the handler — the source performs no crossed-book and no
empty-side check at this stage. -/
def process_binance_orderbook (s : BotState) (p : DepthPayload) : BotState × Bool :=
  handle_orderbook_update s { bids := p.bids, asks := p.asks }

/-! ### Trading transport: pending requests and session shutdown
(`WebSocketTradingClient`, src/websocket_trading_client.cpp). -/

/-- `struct PendingRequest` (include/websocket_trading_client.h): the
single-shot promise is modelled by the `waiting` flag; completing the
promise is recorded in the completion list returned by `wst_disconnect`. -/
structure PendingRequest where
  method : String
  sent_time : ℚ
  waiting : Bool
deriving DecidableEq, Repr

/-- The `WebSocketTradingClient` state the shutdown path touches. -/
structure WSTState where
  running_ : Bool
  connected_ : Bool
  pending_requests_ : List (String × PendingRequest)
deriving DecidableEq, Repr

/-- `WebSocketTradingClient::disconnect` (src/websocket_trading_client.cpp
lines 132-192): an early return when not running; otherwise clear the
flags, complete every still-waiting pending request with the
`"Connection closed"` error, and clear the table.  The second component
lists the promise completions `(id, error)` performed by the sweep. -/
def wst_disconnect (s : WSTState) : WSTState × List (String × String) :=
  if s.running_ = false then (s, [])
  else
    let completions :=
      (s.pending_requests_.filter (fun p => p.2.waiting)).map
        (fun p => (p.1, "Connection closed"))
    ({ running_ := false, connected_ := false, pending_requests_ := [] }, completions)

/-! ### Signed request construction
(`RestClient`, src/rest_client.cpp, and
`WebSocketTradingClient::create_signed_request`,
src/websocket_trading_client.cpp lines 369-398).  The HMAC-SHA256
primitive itself lives in OpenSSL, outside this repository; it enters
the embedding as an abstract function producing the 32 digest bytes. -/

/-- One digest byte printed as `std::hex << std::setw(2) <<
std::setfill('0')`: exactly two lowercase hex digits
(`Nat.digitChar` maps 10..15 to 'a'..'f'). -/
def hexByteChars (b : Fin 256) : List Char :=
  [Nat.digitChar ((b : ℕ) / 16), Nat.digitChar ((b : ℕ) % 16)]

/-- The digest-to-hex loop shared by `RestClient::Impl::hmac_sha256`
(src/rest_client.cpp lines 92-105) and
`WebSocketTradingClient::generate_signature` (lines 348-361): each of
the 32 digest bytes streamed as two zero-filled lowercase hex digits. -/
def hexOfDigest (digest : List (Fin 256)) : String :=
  (digest.flatMap hexByteChars).asString

/-- `RestClient::build_query_string` (src/rest_client.cpp lines 179-188):
`key1=value1&key2=value2&…` by literal concatenation. -/
def build_query_string (params : List (String × String)) : String :=
  (params.foldl
    (fun (acc : String × Bool) p =>
      (acc.1 ++ (if acc.2 then "" else "&") ++ p.1 ++ "=" ++ p.2, false))
    ("", true)).1

/-- The query string plus appended signature assembled by
`RestClient::send_signed_request` (src/rest_client.cpp lines 218-237):
append the millisecond timestamp to the caller's parameter list, sign the
resulting query string with HMAC-SHA256 under `api_secret`, and append
`&signature=<hex>`. -/
def send_signed_request_query (hmac : String → String → List (Fin 256))
    (api_secret : String) (params : List (String × String)) (timestamp : ℕ) :
    String :=
  let params_copy := params ++ [("timestamp", decRepr timestamp)]
  let query_string := build_query_string params_copy
  query_string ++ "&signature=" ++ hexOfDigest (hmac api_secret query_string)

/-- `Json::Value::operator[]` on an `objectValue`: JsonCpp keeps members
ordered by key (a `std::map`), so member assignment is a sorted
insert-or-assign, and `getMemberNames` iterates in that order. -/
def jsonSet : List (String × String) → String → String → List (String × String)
  | [], k, v => [(k, v)]
  | (k', v') :: rest, k, v =>
      if k = k' then (k, v) :: rest
      else if k < k' then (k, v) :: (k', v') :: rest
      else (k', v') :: jsonSet rest k v

/-- The `params` member of the request built by
`WebSocketTradingClient::create_signed_request`
(src/websocket_trading_client.cpp lines 369-398): set `apiKey` and the
millisecond `timestamp`, build the query string over all members in
iteration order, and set `signature` to the hex HMAC of that string. -/
def create_signed_request_params (hmac : String → String → List (Fin 256))
    (api_key api_secret : String) (params : List (String × String))
    (timestamp : ℕ) : List (String × String) :=
  let signed_params := jsonSet (jsonSet params "apiKey" api_key) "timestamp" (decRepr timestamp)
  let query_string := build_query_string signed_params
  jsonSet signed_params "signature" (hexOfDigest (hmac api_secret query_string))

/-! ### Rate limiter (`RateLimiter`, src/rate_limiter.cpp).
Clock samples are in seconds here, matching the source's
`std::chrono::seconds` windows. -/

structure RLConfig where
  max_requests_per_second : ℕ
  burst_size : ℕ
deriving DecidableEq, Repr

/-- `request_times_` deque, front = oldest. -/
structure RLState where
  request_times_ : List ℚ
deriving DecidableEq, Repr

/-- `RateLimiter::cleanup_old_requests` (src/rate_limiter.cpp lines
45-52): pop from the front while older than `now - 60 s`. -/
def cleanup_old_requests (now : ℚ) (s : RLState) : RLState :=
  { request_times_ := s.request_times_.dropWhile (fun t => t < now - 60) }

/-- `RateLimiter::can_request` (src/rate_limiter.cpp lines 12-31):
cleanup, refuse when the retained deque already holds `burst_size`
entries, otherwise admit iff the count within the trailing one second is
below `max_requests_per_second`. -/
def can_request (cfg : RLConfig) (now : ℚ) (s : RLState) : Bool × RLState :=
  let s' := cleanup_old_requests now s
  if cfg.burst_size ≤ s'.request_times_.length then (false, s')
  else
    let recent_requests := (s'.request_times_.filter (fun t => now - 1 < t)).length
    (decide (recent_requests < cfg.max_requests_per_second), s')

/-- The admit test as the spec words it: both the steady-rate bound and
the burst bound read the trailing one-second sliding window. -/
def can_request_spec (cfg : RLConfig) (now : ℚ) (s : RLState) : Bool :=
  let window := (s.request_times_.filter (fun t => now - 1 < t)).length
  decide (window < cfg.max_requests_per_second ∧ window < cfg.burst_size)

/-! ### Client frames (`WebSocketClient`, src/websocket_client.cpp). -/

/-- A client-to-server frame as the source assembles it: the first
header byte (fin/opcode), the second header byte (mask bit ||| length,
or the 126 marker), extended length bytes, the 4-byte masking key copied
into the header, and the XOR-masked payload. -/
structure WsFrame where
  byte0 : ℕ
  byte1 : ℕ
  ext_len : List ℕ
  mask_key : List ℕ
  masked_payload : List ℕ
deriving DecidableEq, Repr

def maskBytesAux (key : List ℕ) : ℕ → List ℕ → List ℕ
  | _, [] => []
  | i, b :: rest => (b ^^^ key.getD (i % 4) 0) :: maskBytesAux key (i + 1) rest

/-- `masked_payload[i] ^= mask[i % 4]` (src/websocket_client.cpp lines
278-282). -/
def maskBytes (key payload : List ℕ) : List ℕ :=
  maskBytesAux key 0 payload

def strBytes (s : String) : List ℕ :=
  s.data.map Char.toNat

/-- The subscription JSON document built by
`WebSocketClient::subscribe_orderbook` (src/websocket_client.cpp lines
247-256). -/
def subscribe_orderbook_message (symbol : String) (depth : ℕ) : String :=
  "\x7b\"method\":\"SUBSCRIBE\",\"params\":[\"" ++ symbol ++ "@depth"
    ++ decRepr depth ++ "@100ms\"],\"id\":1\x7d"

/-- The frame sent by `WebSocketClient::subscribe_orderbook`
(src/websocket_client.cpp lines 256-286): text opcode with FIN, mask bit
set, the fixed masking key `{0x12, 0x34, 0x56, 0x78}`, payload XOR-masked.
`none` models the source leaving the length byte unset for payloads
beyond 65535 bytes (unreachable for these messages). -/
def subscribe_orderbook_frame (symbol : String) (depth : ℕ) : Option WsFrame :=
  let message := subscribe_orderbook_message symbol depth
  let payload := strBytes message
  let len := payload.length
  let mask : List ℕ := [0x12, 0x34, 0x56, 0x78]
  if len ≤ 125 then
    some { byte0 := 0x81, byte1 := 0x80 ||| len, ext_len := [],
           mask_key := mask, masked_payload := maskBytes mask payload }
  else if len ≤ 65535 then
    some { byte0 := 0x81, byte1 := 0x80 ||| 126,
           ext_len := [(len >>> 8) &&& 0xFF, len &&& 0xFF],
           mask_key := mask, masked_payload := maskBytes mask payload }
  else none

/-- The frame sent by `WebSocketClient::send_ping`
(src/websocket_client.cpp lines 515-535): ping opcode with FIN, mask bit
set, the all-zero masking key, empty payload. -/
def ping_frame : WsFrame :=
  { byte0 := 0x89, byte1 := 0x80, ext_len := [],
    mask_key := [0x00, 0x00, 0x00, 0x00], masked_payload := [] }

/-! ### Concrete fixtures used by counterexamples and witnesses. -/

/-- The default strategy configuration (include/config.h): symbol
`BTCUSDT`, spread 2%, order size 0.001, price precision 2, cooldown
100 ms. -/
def cfg0 : Config :=
  { symbol := "BTCUSDT", spread_percentage := 1/50, order_size := 1/1000,
    price_precision := 2, order_update_cooldown := 100 }

/-- A reprice cycle in which the venue rejects the bid and accepts the
ask. -/
def envBidFails : Env :=
  { cancel_bid_ok := true, cancel_ask_ok := true,
    place_bid_result := none, place_ask_result := some "2",
    bid_epoch := 5, bid_rand := 100000, ask_epoch := 6, ask_rand := 100001,
    now := 1000, done := 1010 }

/-- A reprice cycle in which both placements succeed. -/
def envBothOk : Env :=
  { cancel_bid_ok := true, cancel_ask_ok := true,
    place_bid_result := some "1", place_ask_result := some "2",
    bid_epoch := 5, bid_rand := 100000, ask_epoch := 6, ask_rand := 100001,
    now := 1000, done := 1010 }

/-- A later reprice cycle whose `system_clock` count and random draw for
the bid leg repeat those of `envBothOk` (the wall clock is not steady
and the uniform draw can repeat). -/
def envRepeatCid : Env :=
  { envBothOk with
    place_bid_result := some "3"
    place_ask_result := some "4"
    now := 2000
    done := 2010 }

/-- Manager state with no active pair but a recent
`last_order_update_` (a cycle whose placements both failed still sets
the stamp, src/order_manager.cpp lines 186-187). -/
def sNoPair : OMState :=
  { active_bid_order_ := none, active_ask_order_ := none,
    last_mid_price_ := 50000, last_order_update_ := 1000, metrics_ := {} }

/-- A price update arriving 50 ms after the last order update. -/
def envSoon : Env :=
  { envBothOk with
    now := 1050
    done := 1060 }

/-- A resting bid order fixture. -/
def order1 : Order :=
  { order_id := "1", client_order_id := "MM_BID_5_100000",
    side := OrderSide.BUY, price := 49000, quantity := 1/1000 }

/-- A resting ask order fixture. -/
def order2 : Order :=
  { order_id := "2", client_order_id := "MM_ASK_6_100001",
    side := OrderSide.SELL, price := 51000, quantity := 1/1000 }

/-- Manager state with a full active pair resting around mid 50000. -/
def sPair : OMState :=
  { active_bid_order_ := some order1, active_ask_order_ := some order2,
    last_mid_price_ := 50000, last_order_update_ := 1010, metrics_ := {} }

/-- Bot state before the first book arrives. -/
def botS0 : BotState :=
  { current_orderbook_ := { bids := [], asks := [] },
    current_mid_price_ := 0, price_changed_ := false }

/-- Order-placement bucket limits used in counterexamples. -/
def cfgRL : RLConfig := { max_requests_per_second := 10, burst_size := 1 }

/-- A live trading session with one waiting and one already-completed
pending request. -/
def sessionW : WSTState :=
  { running_ := true, connected_ := true,
    pending_requests_ :=
      [("req_1", { method := "order.place", sent_time := 100, waiting := true }),
       ("req_2", { method := "order.cancel", sent_time := 101, waiting := false })] }

/-- A depth payload whose book is crossed: best bid 101 ≥ best ask 100. -/
def crossedPayload : DepthPayload :=
  { bids := [{ price := 101, quantity := 1 }], asks := [{ price := 100, quantity := 1 }] }

/-- 1 if the operation list contains a placement (a "place sequence"),
0 otherwise. -/
def placeSeqCount (ops : List ExchOp) : ℕ :=
  if ops.any ExchOp.isPlace then 1 else 0

/-! ## Helper lemmas on the order manager -/

theorem place_order_op (cfg : Config) (side : OrderSide) (price qty : ℚ)
    (epoch rand : ℕ) (vr : Option String) (s : OMState) :
    (place_order cfg side price qty epoch rand vr s).2.2 =
      ExchOp.place cfg.symbol side price qty (generate_client_order_id side epoch rand) := by
  cases vr <;> cases side <;> rfl

theorem hysteresis_skip_true_iff (s : OMState) (mid : ℚ) :
    hysteresis_skip s mid = true ↔
      (∃ b, s.active_bid_order_ = some b) ∧ (∃ a, s.active_ask_order_ = some a) ∧
      ¬ (|mid - s.last_mid_price_| / s.last_mid_price_ > PRICE_CHANGE_THRESHOLD) := by
  rcases hb : s.active_bid_order_ with _ | b <;>
    rcases ha : s.active_ask_order_ with _ | a <;>
      simp [hysteresis_skip, hb, ha]

theorem execute_reprice_stamp (cfg : Config) (env : Env) (s : OMState) (mid t : ℚ) :
    (execute_reprice cfg env s mid t).2.1.last_mid_price_ = mid ∧
    (execute_reprice cfg env s mid t).2.1.last_order_update_ = env.done ∧
    (execute_reprice cfg env s mid t).2.2.any ExchOp.isPlace = true := by
  refine ⟨?_, ?_, ?_⟩ <;>
    simp [execute_reprice, update_metrics, place_order_op, ExchOp.isPlace, List.any_append]

theorem pmmo_skip_eq (cfg : Config) (env : Env) (s : OMState) (mid t : ℚ)
    (b a : Order) (h0 : ¬ mid ≤ 0) (hb : s.active_bid_order_ = some b)
    (ha : s.active_ask_order_ = some a)
    (hfrac : ¬ (|mid - s.last_mid_price_| / s.last_mid_price_ > PRICE_CHANGE_THRESHOLD)) :
    place_market_maker_orders cfg env s mid t = (true, s, []) := by
  have hskip : hysteresis_skip s mid = true :=
    (hysteresis_skip_true_iff s mid).mpr ⟨⟨b, hb⟩, ⟨a, ha⟩, hfrac⟩
  simp [place_market_maker_orders, h0, hskip]

theorem pmmo_cases (cfg : Config) (env : Env) (s : OMState) (mid t : ℚ) :
    (mid ≤ 0 ∧ place_market_maker_orders cfg env s mid t = (false, s, [])) ∨
    (hysteresis_skip s mid = true ∧
      place_market_maker_orders cfg env s mid t = (true, s, [])) ∨
    ((place_market_maker_orders cfg env s mid t).2.1.last_mid_price_ = mid ∧
      (place_market_maker_orders cfg env s mid t).2.1.last_order_update_ = env.done ∧
      (place_market_maker_orders cfg env s mid t).2.2.any ExchOp.isPlace = true) := by
  by_cases h0 : mid ≤ 0
  · exact Or.inl ⟨h0, by simp [place_market_maker_orders, h0]⟩
  by_cases hskip : hysteresis_skip s mid = true
  · exact Or.inr (Or.inl ⟨hskip, by simp [place_market_maker_orders, h0, hskip]⟩)
  · refine Or.inr (Or.inr ?_)
    have heq : place_market_maker_orders cfg env s mid t = execute_reprice cfg env s mid t := by
      simp [place_market_maker_orders, h0, hskip]
    rw [heq]
    exact execute_reprice_stamp cfg env s mid t

theorem should_update_false_iff (cfg : Config) (s : OMState) (mid now : ℚ) :
    should_update_orders cfg s mid now = false ↔
      (|mid - s.last_mid_price_| < 1/100000 ∨
       now - s.last_order_update_ < cfg.order_update_cooldown) := by
  unfold should_update_orders
  split_ifs with h1 h2
  · exact iff_of_true rfl (Or.inl h1)
  · exact iff_of_true rfl (Or.inr h2)
  · exact iff_of_false (by simp) (not_or.mpr ⟨h1, h2⟩)

theorem uoin_noop (cfg : Config) (env : Env) (s : OMState) (mid t : ℚ)
    (h : should_update_orders cfg s mid env.now = false) :
    update_orders_if_needed cfg env s mid t = (true, s, []) := by
  simp [update_orders_if_needed, h]

theorem placeSeqCount_le_one (ops : List ExchOp) : placeSeqCount ops ≤ 1 := by
  unfold placeSeqCount
  split <;> omega

/-! ## Claims -/

/-- C1: the spec invariant `successful_orders + failed_orders +
rejected_by_validation = total_attempted` fails on the code.  On a
reprice whose bid placement the venue rejects, `place_order` increments
`failed_orders`, yet `update_metrics` still adds 2 to
`successful_orders` ("Both bid and ask") unconditionally; no
`rejected_by_validation` counter exists anywhere in the sources (it is
identically 0), so the sum 2 + 1 + 0 exceeds the 2 attempted
issuances. -/
theorem metrics_accounting_violated_on_failed_leg :
    (place_market_maker_orders cfg0 envBidFails OMState.initial 50000
        995).2.1.metrics_.successful_orders = 2 ∧
    (place_market_maker_orders cfg0 envBidFails OMState.initial 50000
        995).2.1.metrics_.failed_orders = 1 ∧
    ((place_market_maker_orders cfg0 envBidFails OMState.initial 50000
        995).2.2.filter ExchOp.isPlace).length = 2 ∧
    (place_market_maker_orders cfg0 envBidFails OMState.initial 50000
          995).2.1.metrics_.successful_orders +
        (place_market_maker_orders cfg0 envBidFails OMState.initial 50000
          995).2.1.metrics_.failed_orders + 0 ≠
      ((place_market_maker_orders cfg0 envBidFails OMState.initial 50000
        995).2.2.filter ExchOp.isPlace).length := by
  simp only [place_market_maker_orders, hysteresis_skip, execute_reprice, place_order,
    update_metrics, cfg0, envBidFails, OMState.initial, format_price, cppRound,
    LatencyMetrics.update_latency, LatencyMetrics.update_reaction_latency,
    PRICE_CHANGE_THRESHOLD]
  norm_num [ExchOp.isPlace]

/-- C2 counterexample: a price update arriving 50 ms (< T_cooldown =
100 ms) after the last order update, with NO active pair and a material
mid move, is still suppressed: `update_orders_if_needed` is a no-op.
The claim's "only when … an active quote pair exists" is false —
`should_update_orders` never consults the active pair. -/
theorem cooldown_suppresses_without_active_pair :
    update_orders_if_needed cfg0 envSoon sNoPair 50100 1045 = (true, sNoPair, []) ∧
    sNoPair.active_bid_order_ = none ∧
    sNoPair.active_ask_order_ = none ∧
    ¬ (|(50100 : ℚ) - sNoPair.last_mid_price_| < 1/100000) ∧
    envSoon.now - sNoPair.last_order_update_ < cfg0.order_update_cooldown := by
  refine ⟨?_, rfl, rfl, ?_, ?_⟩
  · simp only [update_orders_if_needed, should_update_orders, sNoPair, envSoon, envBothOk, cfg0]
    norm_num
  · simp only [sNoPair]
    rw [show |(50100 : ℚ) - 50000| = 100 by norm_num]
    norm_num
  · simp only [sNoPair, envSoon, envBothOk, cfg0]
    norm_num

/-- C2 amended: the cooldown gate of `should_update_orders` suppresses a
reprice whenever the time since the last order update is below
T_cooldown (or the mid moved by less than the absolute threshold
1e-5), independently of whether an active quote pair exists; and two
updates within T_cooldown produce at most one place sequence whether or
not an active pair exists. -/
theorem cooldown_gate_ignores_active_pair :
    (∀ (cfg : Config) (s : OMState) (mid now : ℚ),
        should_update_orders cfg s mid now = false ↔
          (|mid - s.last_mid_price_| < 1/100000 ∨
           now - s.last_order_update_ < cfg.order_update_cooldown)) ∧
    (∀ (cfg : Config) (env1 env2 : Env) (s : OMState) (mid1 mid2 t1 t2 : ℚ),
        env1.now ≤ env1.done →
        env2.now - env1.now < cfg.order_update_cooldown →
        placeSeqCount (update_orders_if_needed cfg env1 s mid1 t1).2.2 +
          placeSeqCount (update_orders_if_needed cfg env2
            (update_orders_if_needed cfg env1 s mid1 t1).2.1 mid2 t2).2.2 ≤ 1) := by
  constructor
  · exact should_update_false_iff
  · intro cfg env1 env2 s mid1 mid2 t1 t2 hmono hwin
    by_cases h1 : should_update_orders cfg s mid1 env1.now = false
    · rw [uoin_noop cfg env1 s mid1 t1 h1]
      have := placeSeqCount_le_one
        (update_orders_if_needed cfg env2 (true, s, ([] : List ExchOp)).2.1 mid2 t2).2.2
      simpa [placeSeqCount] using this
    · have h1' : should_update_orders cfg s mid1 env1.now = true := by
        cases h : should_update_orders cfg s mid1 env1.now
        · exact absurd h h1
        · rfl
      have hr1 : update_orders_if_needed cfg env1 s mid1 t1 =
          place_market_maker_orders cfg env1 s mid1 t1 := by
        simp [update_orders_if_needed, h1']
      rw [hr1]
      rcases pmmo_cases cfg env1 s mid1 t1 with ⟨_, hE⟩ | ⟨_, hE⟩ | ⟨_, hu, _⟩
      · rw [hE]
        have := placeSeqCount_le_one
          (update_orders_if_needed cfg env2 (false, s, ([] : List ExchOp)).2.1 mid2 t2).2.2
        simpa [placeSeqCount] using this
      · rw [hE]
        have := placeSeqCount_le_one
          (update_orders_if_needed cfg env2 (true, s, ([] : List ExchOp)).2.1 mid2 t2).2.2
        simpa [placeSeqCount] using this
      · have hcool : should_update_orders cfg
            (place_market_maker_orders cfg env1 s mid1 t1).2.1 mid2 env2.now = false := by
          refine (should_update_false_iff _ _ _ _).mpr (Or.inr ?_)
          rw [hu]
          linarith
        rw [uoin_noop cfg env2 _ mid2 t2 hcool]
        have := placeSeqCount_le_one (place_market_maker_orders cfg env1 s mid1 t1).2.2
        simpa [placeSeqCount] using this

/-- C2 amended, witnessed at the counterexample fixture: the gate
characterization at a concrete input, and the two-updates bound for two
cycles 50 ms apart. -/
theorem cooldown_gate_ignores_active_pair_witness :
    (should_update_orders cfg0 sNoPair 50100 1050 = false ↔
      (|(50100 : ℚ) - sNoPair.last_mid_price_| < 1/100000 ∨
       (1050 : ℚ) - sNoPair.last_order_update_ < cfg0.order_update_cooldown)) ∧
    placeSeqCount (update_orders_if_needed cfg0 envBothOk sNoPair 50100 995).2.2 +
      placeSeqCount (update_orders_if_needed cfg0 envSoon
        (update_orders_if_needed cfg0 envBothOk sNoPair 50100 995).2.1 50200 1045).2.2 ≤ 1 :=
  ⟨cooldown_gate_ignores_active_pair.1 cfg0 sNoPair 50100 1050,
   cooldown_gate_ignores_active_pair.2 cfg0 envBothOk envSoon sNoPair 50100 50200 995 1045
     (by norm_num [envBothOk]) (by norm_num [envBothOk, envSoon, cfg0])⟩

/-- C3: with an active quote pair (both legs) and a relative mid change
below δ = 1e-4, `place_market_maker_orders` is a no-op — it returns
true, changes no state, and issues no cancel and no place; consequently,
when a reprice leaves an active pair behind, a second consecutive update
with the identical mid issues nothing, so two consecutive identical-mid
updates produce at most one place sequence. -/
theorem hysteresis_gate_noop :
    (∀ (cfg : Config) (env : Env) (s : OMState) (mid t : ℚ) (b a : Order),
        0 < mid → s.active_bid_order_ = some b → s.active_ask_order_ = some a →
        |mid - s.last_mid_price_| / s.last_mid_price_ < PRICE_CHANGE_THRESHOLD →
        place_market_maker_orders cfg env s mid t = (true, s, [])) ∧
    (∀ (cfg : Config) (env1 env2 : Env) (s : OMState) (mid t1 t2 : ℚ) (b a : Order),
        0 < mid →
        (place_market_maker_orders cfg env1 s mid t1).2.1.active_bid_order_ = some b →
        (place_market_maker_orders cfg env1 s mid t1).2.1.active_ask_order_ = some a →
        place_market_maker_orders cfg env2
            (place_market_maker_orders cfg env1 s mid t1).2.1 mid t2 =
          (true, (place_market_maker_orders cfg env1 s mid t1).2.1, [])) := by
  constructor
  · intro cfg env s mid t b a hm hb ha hfrac
    exact pmmo_skip_eq cfg env s mid t b a (not_le.mpr hm) hb ha (lt_asymm hfrac)
  · intro cfg env1 env2 s mid t1 t2 b a hm hb ha
    rcases pmmo_cases cfg env1 s mid t1 with ⟨h0, _⟩ | ⟨hsk, hE⟩ | ⟨hmid, _, _⟩
    · exact absurd h0 (not_le.mpr hm)
    · rw [hE] at hb ha ⊢
      rcases (hysteresis_skip_true_iff s mid).mp hsk with ⟨_, _, hfrac⟩
      exact pmmo_skip_eq cfg env2 s mid t2 b a (not_le.mpr hm) hb ha hfrac
    · refine pmmo_skip_eq cfg env2 _ mid t2 b a (not_le.mpr hm) hb ha ?_
      rw [hmid, sub_self, abs_zero, zero_div]
      norm_num [PRICE_CHANGE_THRESHOLD]

/-- C3 witnessed: a mid move of 2/50000 = 4e-5 < 1e-4 over the resting
pair leaves the manager untouched, and after a successful reprice a
second identical mid is a no-op. -/
theorem hysteresis_gate_noop_witness :
    place_market_maker_orders cfg0 envBothOk sPair 50002 995 = (true, sPair, []) ∧
    place_market_maker_orders cfg0 envSoon
        (place_market_maker_orders cfg0 envBothOk OMState.initial 50000 995).2.1 50000 1045 =
      (true, (place_market_maker_orders cfg0 envBothOk OMState.initial 50000 995).2.1, []) :=
  ⟨hysteresis_gate_noop.1 cfg0 envBothOk sPair 50002 995 order1 order2 (by norm_num) rfl rfl
    (by
      simp only [sPair, PRICE_CHANGE_THRESHOLD]
      rw [show |(50002 : ℚ) - 50000| = 2 by norm_num]
      norm_num),
   hysteresis_gate_noop.2 cfg0 envBothOk envSoon OMState.initial 50000 995 1045
    ⟨"1", generate_client_order_id OrderSide.BUY 5 100000, OrderSide.BUY, 49000, 1/1000⟩
    ⟨"2", generate_client_order_id OrderSide.SELL 6 100001, OrderSide.SELL, 51000, 1/1000⟩
    (by norm_num)
    (by
      simp only [place_market_maker_orders, hysteresis_skip, execute_reprice, place_order,
        update_metrics, cfg0, envBothOk, OMState.initial, format_price, cppRound,
        LatencyMetrics.update_latency, LatencyMetrics.update_reaction_latency,
        PRICE_CHANGE_THRESHOLD]
      norm_num)
    (by
      simp only [place_market_maker_orders, hysteresis_skip, execute_reprice, place_order,
        update_metrics, cfg0, envBothOk, OMState.initial, format_price, cppRound,
        LatencyMetrics.update_latency, LatencyMetrics.update_reaction_latency,
        PRICE_CHANGE_THRESHOLD]
      norm_num)⟩

/-- C10: both early-return paths are pure frame conditions: the
hysteresis skip in `place_market_maker_orders` (both legs active, change
not above the threshold) and the `should_update_orders` gate in
`update_orders_if_needed` return true with the entire manager state —
legs, `last_mid_price_`, `last_order_update_`, and all metrics —
unchanged, and no exchange operation issued. -/
theorem noop_paths_frame_condition :
    (∀ (cfg : Config) (env : Env) (s : OMState) (mid t : ℚ) (b a : Order),
        0 < mid → s.active_bid_order_ = some b → s.active_ask_order_ = some a →
        ¬ (|mid - s.last_mid_price_| / s.last_mid_price_ > PRICE_CHANGE_THRESHOLD) →
        place_market_maker_orders cfg env s mid t = (true, s, [])) ∧
    (∀ (cfg : Config) (env : Env) (s : OMState) (mid t : ℚ),
        should_update_orders cfg s mid env.now = false →
        update_orders_if_needed cfg env s mid t = (true, s, [])) := by
  constructor
  · intro cfg env s mid t b a hm hb ha hfrac
    exact pmmo_skip_eq cfg env s mid t b a (not_le.mpr hm) hb ha hfrac
  · intro cfg env s mid t h
    exact uoin_noop cfg env s mid t h

/-- C10 witnessed on the resting-pair fixture (mid change 4e-5) and on
the cooldown-suppressed fixture. -/
theorem noop_paths_frame_condition_witness :
    place_market_maker_orders cfg0 envSoon sPair 50002 995 = (true, sPair, []) ∧
    update_orders_if_needed cfg0 envSoon sNoPair 50100 1045 = (true, sNoPair, []) :=
  ⟨noop_paths_frame_condition.1 cfg0 envSoon sPair 50002 995 order1 order2 (by norm_num)
    rfl rfl
    (by
      simp only [sPair, PRICE_CHANGE_THRESHOLD]
      rw [show |(50002 : ℚ) - 50000| = 2 by norm_num]
      norm_num),
   noop_paths_frame_condition.2 cfg0 envSoon sNoPair 50100 1045
    (by
      simp only [should_update_orders, sNoPair, envSoon, envBothOk, cfg0]
      norm_num)⟩

/-- C4 counterexample: a crossed depth payload (best_bid 101 ≥ best_ask
100) is NOT rejected — the published mid is recomputed to 100.5 from the
crossed book and the downstream price-change notification fires.
Neither `process_binance_orderbook` nor `update_mid_price` checks
`best_bid < best_ask`. -/
theorem crossed_book_not_rejected :
    (process_binance_orderbook botS0 crossedPayload).2 = true ∧
    (process_binance_orderbook botS0 crossedPayload).1.current_mid_price_ = 201/2 ∧
    (process_binance_orderbook botS0 crossedPayload).1.price_changed_ = true ∧
    (101 : ℚ) ≥ 100 := by
  simp only [process_binance_orderbook, handle_orderbook_update, update_mid_price, botS0,
    crossedPayload]
  rw [show |(0 : ℚ) - (101 + 100)/2| = 201/2 by rw [abs_sub_comm]; norm_num]
  norm_num

/-- C4 amended: a payload with an empty bid side or an empty ask side
produces no price-change notification and leaves the published mid (and
the notification flag) unchanged; a payload with both sides non-empty —
crossed or not — is accepted: the mid is recomputed as
(best_bid + best_ask)/2 and the notification fires iff the mid moved by
more than 1e-5. -/
theorem empty_sides_rejected_crossed_accepted :
    (∀ (s : BotState) (p : DepthPayload), p.bids = [] ∨ p.asks = [] →
        (process_binance_orderbook s p).2 = false ∧
        (process_binance_orderbook s p).1.current_mid_price_ = s.current_mid_price_ ∧
        (process_binance_orderbook s p).1.price_changed_ = s.price_changed_) ∧
    (∀ (s : BotState) (p : DepthPayload) (b0 a0 : PriceLevel)
        (bs rest : List PriceLevel), p.bids = b0 :: bs → p.asks = a0 :: rest →
        (process_binance_orderbook s p).1.current_mid_price_ = (b0.price + a0.price) / 2 ∧
        ((process_binance_orderbook s p).2 = true ↔
          |s.current_mid_price_ - (b0.price + a0.price) / 2| > 1/100000)) := by
  constructor
  · intro s p h
    rcases h with h | h
    · simp [process_binance_orderbook, handle_orderbook_update, update_mid_price, h]
    · cases hb : p.bids <;>
        simp [process_binance_orderbook, handle_orderbook_update, update_mid_price, h, hb]
  · intro s p b0 a0 bs rest hb ha
    simp only [process_binance_orderbook, handle_orderbook_update, update_mid_price, hb, ha]
    constructor
    · split_ifs <;> rfl
    · split_ifs with hc
      · exact iff_of_true rfl hc
      · exact iff_of_false (by simp) hc

/-- C4 amended, witnessed: an empty-ask payload changes nothing, and the
crossed payload recomputes the mid and fires iff it moved. -/
theorem empty_sides_rejected_crossed_accepted_witness :
    ((process_binance_orderbook botS0
        { bids := [{ price := 101, quantity := 1 }], asks := [] }).2 = false ∧
      (process_binance_orderbook botS0
        { bids := [{ price := 101, quantity := 1 }], asks := [] }).1.current_mid_price_ =
        botS0.current_mid_price_ ∧
      (process_binance_orderbook botS0
        { bids := [{ price := 101, quantity := 1 }], asks := [] }).1.price_changed_ =
        botS0.price_changed_) ∧
    ((process_binance_orderbook botS0 crossedPayload).1.current_mid_price_ =
        ((101 : ℚ) + 100) / 2 ∧
      ((process_binance_orderbook botS0 crossedPayload).2 = true ↔
        |botS0.current_mid_price_ - ((101 : ℚ) + 100) / 2| > 1/100000)) :=
  ⟨empty_sides_rejected_crossed_accepted.1 botS0
      { bids := [{ price := 101, quantity := 1 }], asks := [] } (Or.inr rfl),
   empty_sides_rejected_crossed_accepted.2 botS0 crossedPayload
      { price := 101, quantity := 1 } { price := 100, quantity := 1 } [] [] rfl rfl⟩

/-- C5: disconnecting a running trading session completes every pending
request that still has a live waiter with the closed-session error
`"Connection closed"`, and afterwards the pending-request table is
empty. -/
theorem disconnect_fails_pending_and_clears (s : WSTState) (h : s.running_ = true) :
    (wst_disconnect s).1.pending_requests_ = [] ∧
    (∀ (id : String) (req : PendingRequest), (id, req) ∈ s.pending_requests_ →
        req.waiting = true → (id, "Connection closed") ∈ (wst_disconnect s).2) := by
  have hcond : ¬ (s.running_ = false) := by simp [h]
  constructor
  · simp [wst_disconnect, if_neg hcond]
  · intro id req hmem hwait
    unfold wst_disconnect
    rw [if_neg hcond]
    exact List.mem_map.mpr ⟨(id, req), List.mem_filter.mpr ⟨hmem, by simp [hwait]⟩, rfl⟩

/-- C5 witnessed on a session holding one live waiter and one completed
request. -/
theorem disconnect_fails_pending_and_clears_witness :
    (wst_disconnect sessionW).1.pending_requests_ = [] ∧
    ("req_1", "Connection closed") ∈ (wst_disconnect sessionW).2 :=
  ⟨(disconnect_fails_pending_and_clears sessionW rfl).1,
   (disconnect_fails_pending_and_clears sessionW rfl).2 "req_1"
     { method := "order.place", sent_time := 100, waiting := true }
     (List.mem_cons_self _ _) rfl⟩

/-! ## Helper lemmas on sorted JSON member maps -/

theorem jsonSet_lookup_self (l : List (String × String)) (k v : String) :
    (jsonSet l k v).lookup k = some v := by
  induction l with
  | nil => simp [jsonSet, List.lookup]
  | cons p rest ih =>
      obtain ⟨k', v'⟩ := p
      by_cases h1 : k = k'
      · subst h1
        simp [jsonSet, List.lookup]
      · have hb1 : (k == k') = false := beq_eq_false_iff_ne.mpr h1
        by_cases h2 : k < k'
        · simp [jsonSet, h1, h2, List.lookup]
        · simp [jsonSet, h1, h2, List.lookup, hb1, ih]

theorem jsonSet_lookup_other (l : List (String × String)) (k v k' : String)
    (hne : k' ≠ k) : (jsonSet l k v).lookup k' = l.lookup k' := by
  have hbne : (k' == k) = false := beq_eq_false_iff_ne.mpr hne
  induction l with
  | nil => simp [jsonSet, List.lookup, hbne]
  | cons p rest ih =>
      obtain ⟨k'', v''⟩ := p
      by_cases h1 : k = k''
      · subst h1
        simp [jsonSet, List.lookup, hbne]
      · by_cases h2 : k < k''
        · simp [jsonSet, h1, h2, List.lookup, hbne]
        · simp [jsonSet, h1, h2, List.lookup, ih]

theorem jsonSet_mem (l : List (String × String)) (k v : String) :
    ∀ p ∈ jsonSet l k v, p ∈ l ∨ p.1 = k := by
  induction l with
  | nil =>
      intro p hp
      rw [show jsonSet [] k v = [(k, v)] from rfl, List.mem_singleton] at hp
      subst hp
      exact Or.inr rfl
  | cons q rest ih =>
      obtain ⟨k', v'⟩ := q
      intro p hp
      by_cases h1 : k = k'
      · rw [show jsonSet ((k', v') :: rest) k v =
            if k = k' then (k, v) :: rest else if k < k' then (k, v) :: (k', v') :: rest
              else (k', v') :: jsonSet rest k v from rfl,
          if_pos h1, List.mem_cons] at hp
        rcases hp with hp | hp
        · subst hp
          exact Or.inr rfl
        · exact Or.inl (List.mem_cons_of_mem _ hp)
      · rw [show jsonSet ((k', v') :: rest) k v =
            if k = k' then (k, v) :: rest else if k < k' then (k, v) :: (k', v') :: rest
              else (k', v') :: jsonSet rest k v from rfl,
          if_neg h1] at hp
        by_cases h2 : k < k'
        · rw [if_pos h2, List.mem_cons, List.mem_cons] at hp
          rcases hp with hp | hp | hp
          · subst hp
            exact Or.inr rfl
          · subst hp
            exact Or.inl (List.mem_cons_self _ _)
          · exact Or.inl (List.mem_cons_of_mem _ hp)
        · rw [if_neg h2, List.mem_cons] at hp
          rcases hp with hp | hp
          · subst hp
            exact Or.inl (List.mem_cons_self _ _)
          · rcases ih p hp with h | h
            · exact Or.inl (List.mem_cons_of_mem _ h)
            · exact Or.inr h

theorem jsonSet_filter_ne (l : List (String × String)) (k v : String)
    (h : ∀ p ∈ l, p.1 ≠ k) :
    (jsonSet l k v).filter (fun p => p.1 != k) = l := by
  induction l with
  | nil => simp [jsonSet]
  | cons q rest ih =>
      obtain ⟨k', v'⟩ := q
      have hk' : k' ≠ k := h (k', v') (List.mem_cons_self _ _)
      by_cases h1 : k = k'
      · exact absurd h1.symm hk'
      · by_cases h2 : k < k'
        · simp only [jsonSet, if_neg h1, if_pos h2]
          rw [List.filter_cons_of_neg (by simp), List.filter_eq_self.mpr]
          intro p hp
          simpa using h p hp
        · simp only [jsonSet, if_neg h1, if_neg h2]
          rw [List.filter_cons_of_pos (by simpa using hk'),
            ih (fun p hp => h p (List.mem_cons_of_mem _ hp))]

/-- C6: in both transport variants the signature is the lowercase hex
HMAC-SHA256, keyed by `api_secret`, of the `k=v&…` query string built by
literal concatenation over the caller-formatted parameters including the
millisecond timestamp and excluding the signature member itself; the
HTTP variant appends `&signature=<hex>` to the query string, the stream
variant sets the `signature` member of `params`. -/
theorem signed_request_signature_spec :
    (∀ (hmac : String → String → List (Fin 256)) (api_secret : String)
        (params : List (String × String)) (ts : ℕ),
        send_signed_request_query hmac api_secret params ts =
          build_query_string (params ++ [("timestamp", decRepr ts)]) ++ "&signature=" ++
            hexOfDigest (hmac api_secret
              (build_query_string (params ++ [("timestamp", decRepr ts)])))) ∧
    (∀ digest : List (Fin 256), ∀ c ∈ (hexOfDigest digest).data,
        c ∈ "0123456789abcdef".data) ∧
    (∀ (hmac : String → String → List (Fin 256)) (api_key api_secret : String)
        (params : List (String × String)) (ts : ℕ),
        (∀ p ∈ params, p.1 ≠ "signature") →
        (create_signed_request_params hmac api_key api_secret params ts).lookup "signature" =
            some (hexOfDigest (hmac api_secret (build_query_string
              ((create_signed_request_params hmac api_key api_secret params ts).filter
                (fun p => p.1 != "signature"))))) ∧
          (create_signed_request_params hmac api_key api_secret params ts).lookup
              "timestamp" = some (decRepr ts)) := by
  refine ⟨fun _ _ _ _ => rfl, ?_, ?_⟩
  · intro digest c hc
    have hdata : (hexOfDigest digest).data = digest.flatMap hexByteChars := rfl
    rw [hdata] at hc
    rcases List.mem_flatMap.mp hc with ⟨b, _, hcb⟩
    have hlt : ∀ x < 16, Nat.digitChar x ∈ "0123456789abcdef".data := by decide
    rcases List.mem_cons.mp hcb with h | h
    · rw [h]
      exact hlt _ (Nat.div_lt_of_lt_mul (by omega))
    · rw [List.mem_singleton.mp h]
      exact hlt _ (Nat.mod_lt _ (by omega))
  · intro hmac api_key api_secret params ts h
    have hsp : ∀ p ∈ jsonSet (jsonSet params "apiKey" api_key) "timestamp" (decRepr ts),
        p.1 ≠ "signature" := by
      intro p hp
      rcases jsonSet_mem _ _ _ p hp with hp2 | hp2
      · rcases jsonSet_mem _ _ _ p hp2 with hp3 | hp3
        · exact h p hp3
        · rw [hp3]; decide
      · rw [hp2]; decide
    constructor
    · rw [show create_signed_request_params hmac api_key api_secret params ts =
          jsonSet (jsonSet (jsonSet params "apiKey" api_key) "timestamp" (decRepr ts))
            "signature" (hexOfDigest (hmac api_secret (build_query_string
              (jsonSet (jsonSet params "apiKey" api_key) "timestamp" (decRepr ts)))))
          from rfl]
      rw [jsonSet_lookup_self, jsonSet_filter_ne _ _ _ hsp]
    · rw [show create_signed_request_params hmac api_key api_secret params ts =
          jsonSet (jsonSet (jsonSet params "apiKey" api_key) "timestamp" (decRepr ts))
            "signature" (hexOfDigest (hmac api_secret (build_query_string
              (jsonSet (jsonSet params "apiKey" api_key) "timestamp" (decRepr ts)))))
          from rfl]
      rw [jsonSet_lookup_other _ _ _ _ (by decide), jsonSet_lookup_self]

/-- C6 witnessed with a one-parameter request and a constant one-byte
digest function. -/
theorem signed_request_signature_spec_witness :
    (send_signed_request_query (fun _ _ => [(171 : Fin 256)]) "sec"
        [("symbol", "BTCUSDT")] 5 =
      build_query_string ([("symbol", "BTCUSDT")] ++ [("timestamp", decRepr 5)]) ++
        "&signature=" ++ hexOfDigest [(171 : Fin 256)]) ∧
    'a' ∈ "0123456789abcdef".data ∧
    ((create_signed_request_params (fun _ _ => [(171 : Fin 256)]) "key" "sec"
        [("symbol", "BTCUSDT")] 5).lookup "signature" =
      some (hexOfDigest [(171 : Fin 256)]) ∧
     (create_signed_request_params (fun _ _ => [(171 : Fin 256)]) "key" "sec"
        [("symbol", "BTCUSDT")] 5).lookup "timestamp" = some (decRepr 5)) :=
  ⟨signed_request_signature_spec.1 (fun _ _ => [(171 : Fin 256)]) "sec"
      [("symbol", "BTCUSDT")] 5,
   signed_request_signature_spec.2.1 [(171 : Fin 256)] 'a' (by decide),
   signed_request_signature_spec.2.2 (fun _ _ => [(171 : Fin 256)]) "key" "sec"
      [("symbol", "BTCUSDT")] 5 (by decide)⟩

/-! ## Helper lemmas on the rate limiter -/

theorem sorted_dropWhile_lt (c : ℚ) (l : List ℚ) (hs : l.Sorted (· ≤ ·)) :
    l.dropWhile (fun t => decide (t < c)) = l.filter (fun t => decide (¬ t < c)) := by
  induction l with
  | nil => rfl
  | cons x xs ih =>
      have hall := (List.sorted_cons.mp hs).1
      have hxs := (List.sorted_cons.mp hs).2
      by_cases hx : x < c
      · rw [List.dropWhile_cons_of_pos (by simpa using hx),
          List.filter_cons_of_neg (by simpa using hx)]
        exact ih hxs
      · rw [List.dropWhile_cons_of_neg (by simpa using hx),
          List.filter_cons_of_pos (by simpa using hx), List.filter_eq_self.mpr]
        intro a ha
        have h1 : c ≤ x := not_lt.mp hx
        have h2 : x ≤ a := hall a ha
        simp [not_lt.mpr (h1.trans h2)]

/-- C7 counterexample: with `burst_size = 1`, `max_per_second = 10`, and
a single request recorded 30 s ago, `can_request` (at `now = 100`, times
in seconds) denies admission although the trailing one-second window is
empty — the burst check reads the 60-second retention window, so the
claimed one-second characterization is false at this input. -/
theorem burst_uses_60s_window_counterexample :
    (can_request cfgRL 100 ⟨[70]⟩).1 = false ∧
    can_request_spec cfgRL 100 ⟨[70]⟩ = true ∧
    ¬ ((can_request cfgRL 100 ⟨[70]⟩).1 = true ↔ can_request_spec cfgRL 100 ⟨[70]⟩ = true) := by
  refine ⟨?_, ?_, ?_⟩ <;>
    · simp only [can_request, can_request_spec, cleanup_old_requests, cfgRL]
      norm_num

/-- C7 amended: the non-blocking admit test returns true iff the number
of retained requests within the trailing 60 seconds is below
`burst_size` AND the number within the trailing one second is below
`max_per_second` (for a chronologically ordered deque). -/
theorem can_request_iff_burst60_rate1 (cfg : RLConfig) (now : ℚ) (s : RLState)
    (hs : s.request_times_.Sorted (· ≤ ·)) :
    (can_request cfg now s).1 = true ↔
      ((s.request_times_.filter (fun t => decide (now - 60 ≤ t))).length < cfg.burst_size ∧
       (s.request_times_.filter (fun t => decide (now - 1 < t))).length <
         cfg.max_requests_per_second) := by
  have hdrop : s.request_times_.dropWhile (fun t => decide (t < now - 60)) =
      s.request_times_.filter (fun t => decide (now - 60 ≤ t)) := by
    rw [sorted_dropWhile_lt _ _ hs]
    congr 1
    funext t
    simp [not_lt]
  have hsub : ((s.request_times_.filter (fun t => decide (now - 60 ≤ t))).filter
      (fun t => decide (now - 1 < t))).length =
      (s.request_times_.filter (fun t => decide (now - 1 < t))).length := by
    rw [List.filter_filter]
    congr 1
    apply List.filter_congr
    intro t _
    by_cases h : now - 1 < t
    · have : now - 60 ≤ t := by linarith
      simp [h, this]
    · simp [h]
  simp only [can_request, cleanup_old_requests, hdrop]
  by_cases hb : cfg.burst_size ≤
      (s.request_times_.filter (fun t => decide (now - 60 ≤ t))).length
  · rw [if_pos hb]
    constructor
    · intro h
      exact absurd h (by simp)
    · intro ⟨h, _⟩
      omega
  · rw [if_neg hb]
    rw [hsub]
    constructor
    · intro h
      exact ⟨by omega, of_decide_eq_true h⟩
    · intro ⟨_, h⟩
      exact decide_eq_true h

/-- C7 amended, witnessed: two retained requests (one 30 s old, one
0.5 s old) against burst 2 / rate 2. -/
theorem can_request_iff_burst60_rate1_witness :
    (can_request { max_requests_per_second := 2, burst_size := 2 } 100 ⟨[70, 99]⟩).1 = true ↔
      ((([70, 99] : List ℚ).filter (fun t => decide ((100 : ℚ) - 60 ≤ t))).length < 2 ∧
       (([70, 99] : List ℚ).filter (fun t => decide ((100 : ℚ) - 1 < t))).length < 2) :=
  can_request_iff_burst60_rate1 { max_requests_per_second := 2, burst_size := 2 } 100 ⟨[70, 99]⟩
    (by simp [List.sorted_cons]; norm_num)

/-! ## Helper lemmas on frame masking -/

theorem maskBytesAux_invol (key : List ℕ) (l : List ℕ) :
    ∀ i : ℕ, maskBytesAux key i (maskBytesAux key i l) = l := by
  induction l with
  | nil => intro i; rfl
  | cons b rest ih =>
      intro i
      simp [maskBytesAux, Nat.xor_assoc, Nat.xor_self, ih]

theorem maskBytes_invol (key payload : List ℕ) :
    maskBytes key (maskBytes key payload) = payload :=
  maskBytesAux_invol key payload 0

/-- C8 counterexample: two distinct client frames (two different
subscriptions) carry the same masking key `{0x12, 0x34, 0x56, 0x78}` —
the key is a compile-time constant, not fresh per frame — and every ping
frame uses the all-zero key. -/
theorem mask_key_not_fresh :
    subscribe_orderbook_frame "BTCUSDT" 20 ≠ subscribe_orderbook_frame "ETHUSDT" 20 ∧
    (subscribe_orderbook_frame "BTCUSDT" 20).map WsFrame.mask_key =
      some [0x12, 0x34, 0x56, 0x78] ∧
    (subscribe_orderbook_frame "ETHUSDT" 20).map WsFrame.mask_key =
      some [0x12, 0x34, 0x56, 0x78] ∧
    ping_frame.mask_key = [0x00, 0x00, 0x00, 0x00] := by
  decide

/-- C8 amended: every client-to-server frame is sent with the mask bit
(bit 7 of the second header byte) set and its payload XOR-masked (the
payload is recovered by XOR-ing with the key again), but the masking key
is a fixed constant — `{0x12, 0x34, 0x56, 0x78}` for subscription
frames, all-zero for ping frames — not a fresh key per frame. -/
theorem frames_masked_with_fixed_key :
    (∀ (symbol : String) (depth : ℕ) (f : WsFrame),
        subscribe_orderbook_frame symbol depth = some f →
        f.byte0 = 0x81 ∧ f.byte1.testBit 7 = true ∧
        f.mask_key = [0x12, 0x34, 0x56, 0x78] ∧
        maskBytes f.mask_key f.masked_payload =
          strBytes (subscribe_orderbook_message symbol depth)) ∧
    (ping_frame.byte1.testBit 7 = true ∧ ping_frame.mask_key = [0, 0, 0, 0] ∧
      ping_frame.masked_payload = []) := by
  constructor
  · intro symbol depth f hf
    simp only [subscribe_orderbook_frame] at hf
    split_ifs at hf with h1 h2
    · rw [Option.some.injEq] at hf
      subst hf
      refine ⟨rfl, ?_, rfl, maskBytes_invol _ _⟩
      rw [Nat.testBit_or, show Nat.testBit 128 7 = true by decide, Bool.true_or]
    · rw [Option.some.injEq] at hf
      subst hf
      refine ⟨rfl, ?_, rfl, maskBytes_invol _ _⟩
      rw [Nat.testBit_or, show Nat.testBit 128 7 = true by decide, Bool.true_or]
  · exact ⟨by decide, rfl, rfl⟩

/-- C8 amended, witnessed on the BTCUSDT depth-20 subscription frame. -/
theorem frames_masked_with_fixed_key_witness :
    ((subscribe_orderbook_frame "BTCUSDT" 20).getD ping_frame).byte0 = 0x81 ∧
    ((subscribe_orderbook_frame "BTCUSDT" 20).getD ping_frame).byte1.testBit 7 = true ∧
    ((subscribe_orderbook_frame "BTCUSDT" 20).getD ping_frame).mask_key =
      [0x12, 0x34, 0x56, 0x78] ∧
    maskBytes ((subscribe_orderbook_frame "BTCUSDT" 20).getD ping_frame).mask_key
        ((subscribe_orderbook_frame "BTCUSDT" 20).getD ping_frame).masked_payload =
      strBytes (subscribe_orderbook_message "BTCUSDT" 20) :=
  frames_masked_with_fixed_key.1 "BTCUSDT" 20 _ (by decide)

/-! ## Helper lemmas on decimal rendering and client order ids -/

theorem string_data_injective : Function.Injective String.data := by
  intro s t h
  cases s
  cases t
  exact congrArg String.mk h

theorem data_append (s t : String) : (s ++ t).data = s.data ++ t.data := rfl

theorem decDigitsAux_eq (fuel : ℕ) : ∀ n : ℕ, n ≠ 0 → n ≤ fuel →
    decDigitsAux fuel n = (Nat.digits 10 n).reverse.map Nat.digitChar := by
  induction fuel with
  | zero =>
      intro n h0 hle
      omega
  | succ f ih =>
      intro n h0 hle
      rw [decDigitsAux]
      by_cases h10 : n < 10
      · rw [if_pos h10, Nat.digits_def' (by norm_num : 1 < 10) (Nat.pos_of_ne_zero h0),
          Nat.mod_eq_of_lt h10, Nat.div_eq_of_lt h10]
        simp
      · rw [if_neg h10]
        have hd0 : n / 10 ≠ 0 := by omega
        have hdle : n / 10 ≤ f := by
          have := Nat.div_lt_self (Nat.pos_of_ne_zero h0) (by norm_num : 1 < 10)
          omega
        rw [ih (n / 10) hd0 hdle,
          Nat.digits_def' (by norm_num : 1 < 10) (Nat.pos_of_ne_zero h0)]
        simp

theorem decRepr_data (n : ℕ) (h0 : n ≠ 0) :
    (decRepr n).data = (Nat.digits 10 n).reverse.map Nat.digitChar := by
  unfold decRepr
  rw [decDigitsAux_eq (n + 1) n h0 (by omega)]
  rfl

theorem digitChar_inj_lt : ∀ x < 16, ∀ y < 16, Nat.digitChar x = Nat.digitChar y → x = y := by
  decide

theorem digitChar_ne_underscore : ∀ x < 16, Nat.digitChar x ≠ '_' := by
  decide

theorem decRepr_no_underscore (n : ℕ) : '_' ∉ (decRepr n).data := by
  by_cases h0 : n = 0
  · subst h0
    decide
  · rw [decRepr_data n h0]
    intro hmem
    rcases List.mem_map.mp hmem with ⟨d, hd, hdc⟩
    have hdlt : d < 10 := Nat.digits_lt_base (by norm_num) (List.mem_reverse.mp hd)
    exact digitChar_ne_underscore d (by omega) hdc

theorem map_digitChar_inj :
    ∀ (l1 l2 : List ℕ), (∀ d ∈ l1, d < 10) → (∀ d ∈ l2, d < 10) →
      l1.map Nat.digitChar = l2.map Nat.digitChar → l1 = l2 := by
  intro l1
  induction l1 with
  | nil =>
      intro l2 _ _ h
      cases l2 with
      | nil => rfl
      | cons e rest2 => simp at h
  | cons d rest ih =>
      intro l2 h1 h2 h
      cases l2 with
      | nil => simp at h
      | cons e rest2 =>
          simp only [List.map_cons, List.cons.injEq] at h
          have hd10 : d < 16 := by
            have := h1 d (List.mem_cons_self _ _)
            omega
          have he10 : e < 16 := by
            have := h2 e (List.mem_cons_self _ _)
            omega
          rw [digitChar_inj_lt d hd10 e he10 h.1,
            ih rest2 (fun x hx => h1 x (List.mem_cons_of_mem _ hx))
              (fun x hx => h2 x (List.mem_cons_of_mem _ hx)) h.2]

theorem decRepr_injective : Function.Injective decRepr := by
  have key : ∀ a b : ℕ, a ≠ 0 → b ≠ 0 → decRepr a = decRepr b → a = b := by
    intro a b ha hb h
    have hd := congrArg String.data h
    rw [decRepr_data a ha, decRepr_data b hb] at hd
    have hrev : (Nat.digits 10 a).reverse = (Nat.digits 10 b).reverse :=
      map_digitChar_inj _ _
        (fun d hd2 => Nat.digits_lt_base (by norm_num) (List.mem_reverse.mp hd2))
        (fun d hd2 => Nat.digits_lt_base (by norm_num) (List.mem_reverse.mp hd2)) hd
    exact Nat.digits.injective 10 (List.reverse_injective hrev)
  have key0 : ∀ b : ℕ, b ≠ 0 → decRepr 0 ≠ decRepr b := by
    intro b hb h
    have hd := congrArg String.data h
    rw [decRepr_data b hb] at hd
    have hlen : ((Nat.digits 10 b).reverse.map Nat.digitChar).length = 1 := by
      rw [← hd]
      decide
    rw [List.length_map, List.length_reverse] at hlen
    rcases List.length_eq_one.mp hlen with ⟨d, hdig⟩
    rw [hdig] at hd
    have hd0 : d = 0 := by
      have hdlt : d < 10 := by
        have : d ∈ Nat.digits 10 b := by
          rw [hdig]
          exact List.mem_singleton_self d
        exact Nat.digits_lt_base (by norm_num) this
      have : Nat.digitChar d = '0' := by
        have := congrArg (fun l => l.headD ' ') hd
        simpa using this.symm
      exact digitChar_inj_lt d (by omega) 0 (by norm_num) (by rw [this]; rfl)
    have hofd := Nat.ofDigits_digits 10 b
    rw [hdig, hd0] at hofd
    simp [Nat.ofDigits] at hofd
    exact hb hofd.symm
  intro a b h
  by_cases ha : a = 0 <;> by_cases hb : b = 0
  · rw [ha, hb]
  · exact absurd (ha ▸ h) (key0 b hb)
  · exact absurd (hb ▸ h.symm) (key0 a ha)
  · exact key a b ha hb h

theorem append_cons_inj {c : Char} :
    ∀ (xs1 xs2 ys1 ys2 : List Char), c ∉ xs1 → c ∉ xs2 →
      xs1 ++ c :: ys1 = xs2 ++ c :: ys2 → xs1 = xs2 ∧ ys1 = ys2 := by
  intro xs1
  induction xs1 with
  | nil =>
      intro xs2 ys1 ys2 _ h2 h
      cases xs2 with
      | nil => simpa using h
      | cons x xs =>
          simp only [List.nil_append, List.cons_append, List.cons.injEq] at h
          exact absurd (h.1 ▸ List.mem_cons_self x xs) h2
  | cons x xs ih =>
      intro xs2 ys1 ys2 h1 h2 h
      cases xs2 with
      | nil =>
          simp only [List.cons_append, List.nil_append, List.cons.injEq] at h
          exact absurd (h.1 ▸ List.mem_cons_self x xs) h1
      | cons y ys =>
          simp only [List.cons_append, List.cons.injEq] at h
          obtain ⟨hxy, hrest⟩ := h
          obtain ⟨hxs, hys⟩ := ih ys ys1 ys2
            (fun hc => h1 (List.mem_cons_of_mem _ hc))
            (fun hc => h2 (List.mem_cons_of_mem _ hc)) hrest
          exact ⟨by rw [hxy, hxs], hys⟩

theorem gen_cid_data_buy (e r : ℕ) :
    (generate_client_order_id OrderSide.BUY e r).data =
      ['M', 'M', '_', 'B', 'I', 'D', '_'] ++
        ((decRepr e).data ++ '_' :: (decRepr r).data) := by
  simp [generate_client_order_id, data_append, List.append_assoc]

theorem gen_cid_data_sell (e r : ℕ) :
    (generate_client_order_id OrderSide.SELL e r).data =
      ['M', 'M', '_', 'A', 'S', 'K', '_'] ++
        ((decRepr e).data ++ '_' :: (decRepr r).data) := by
  simp [generate_client_order_id, data_append, List.append_assoc]

/-- C9 counterexample: a session in which the wall-clock count and the
random draw repeat across two reprice cycles (the `system_clock` is not
monotone and the uniform draw can repeat) creates two distinct Orders —
venue ids "1" and "3", placed at different prices — whose
client_order_ids are both `MM_BID_5_100000`.  Uniqueness is not
enforced anywhere. -/
theorem client_order_id_collision_in_session :
    (place_market_maker_orders cfg0 envBothOk OMState.initial 50000
        995).2.1.active_bid_order_.map Order.client_order_id = some "MM_BID_5_100000" ∧
    (place_market_maker_orders cfg0 envRepeatCid
        (place_market_maker_orders cfg0 envBothOk OMState.initial 50000 995).2.1 50500
        1995).2.1.active_bid_order_.map Order.client_order_id = some "MM_BID_5_100000" ∧
    (place_market_maker_orders cfg0 envBothOk OMState.initial 50000
        995).2.1.active_bid_order_.map Order.order_id = some "1" ∧
    (place_market_maker_orders cfg0 envRepeatCid
        (place_market_maker_orders cfg0 envBothOk OMState.initial 50000 995).2.1 50500
        1995).2.1.active_bid_order_.map Order.order_id = some "3" := by
  simp only [place_market_maker_orders, hysteresis_skip, execute_reprice, place_order,
    update_metrics, cfg0, envBothOk, envRepeatCid, OMState.initial, format_price, cppRound,
    LatencyMetrics.update_latency, LatencyMetrics.update_reaction_latency,
    PRICE_CHANGE_THRESHOLD]
  norm_num [Option.map]
  decide

/-- C9 amended: every generated client_order_id has the form
`MM_<SIDE>_<epoch>_<rand6>` with SIDE ∈ {BID, ASK} and a six-digit
random suffix, and two generated ids coincide only if the side, the
clock count, and the random draw all coincide — so ids are distinct
whenever any of the three inputs differ, but collide when the clock
count and draw repeat. -/
theorem client_order_id_format_and_uniqueness :
    (∀ e r : ℕ, generate_client_order_id OrderSide.BUY e r =
        "MM_BID_" ++ decRepr e ++ "_" ++ decRepr r) ∧
    (∀ e r : ℕ, generate_client_order_id OrderSide.SELL e r =
        "MM_ASK_" ++ decRepr e ++ "_" ++ decRepr r) ∧
    (∀ r : ℕ, 100000 ≤ r → r ≤ 999999 → (decRepr r).length = 6) ∧
    (∀ (side1 side2 : OrderSide) (e1 e2 r1 r2 : ℕ),
        generate_client_order_id side1 e1 r1 = generate_client_order_id side2 e2 r2 →
        side1 = side2 ∧ e1 = e2 ∧ r1 = r2) := by
  refine ⟨?_, ?_, ?_, ?_⟩
  · intro e r
    apply string_data_injective
    rw [gen_cid_data_buy]
    simp [data_append]
  · intro e r
    apply string_data_injective
    rw [gen_cid_data_sell]
    simp [data_append]
  · intro r h1 h2
    have hr0 : r ≠ 0 := by omega
    have hlen : (decRepr r).length = (decRepr r).data.length := rfl
    rw [hlen, decRepr_data r hr0, List.length_map, List.length_reverse,
      Nat.digits_len 10 r (by norm_num) hr0,
      Nat.log_eq_of_pow_le_of_lt_pow (show 10 ^ 5 ≤ r by norm_num; omega)
        (show r < 10 ^ 6 by norm_num; omega)]
  · intro side1 side2 e1 e2 r1 r2 h
    have hd := congrArg String.data h
    cases side1 <;> cases side2
    · rw [gen_cid_data_buy, gen_cid_data_buy] at hd
      obtain ⟨hE, hR⟩ := append_cons_inj _ _ _ _
        (decRepr_no_underscore e1) (decRepr_no_underscore e2)
        (List.append_cancel_left hd)
      exact ⟨rfl, decRepr_injective (string_data_injective hE),
        decRepr_injective (string_data_injective hR)⟩
    · rw [gen_cid_data_buy, gen_cid_data_sell] at hd
      simp at hd
    · rw [gen_cid_data_sell, gen_cid_data_buy] at hd
      simp at hd
    · rw [gen_cid_data_sell, gen_cid_data_sell] at hd
      obtain ⟨hE, hR⟩ := append_cons_inj _ _ _ _
        (decRepr_no_underscore e1) (decRepr_no_underscore e2)
        (List.append_cancel_left hd)
      exact ⟨rfl, decRepr_injective (string_data_injective hE),
        decRepr_injective (string_data_injective hR)⟩

/-- C9 amended, witnessed at concrete inputs: the BID format at epoch 5,
draw 100000; the six-digit suffix length at 123456; and input
determination applied to the identity collision. -/
theorem client_order_id_format_and_uniqueness_witness :
    generate_client_order_id OrderSide.BUY 5 100000 =
        "MM_BID_" ++ decRepr 5 ++ "_" ++ decRepr 100000 ∧
    (decRepr 123456).length = 6 ∧
    (OrderSide.BUY = OrderSide.BUY ∧ (5 : ℕ) = 5 ∧ (100000 : ℕ) = 100000) :=
  ⟨client_order_id_format_and_uniqueness.1 5 100000,
   client_order_id_format_and_uniqueness.2.2.1 123456 (by norm_num) (by norm_num),
   client_order_id_format_and_uniqueness.2.2.2 OrderSide.BUY OrderSide.BUY 5 5 100000 100000
     rfl⟩

end MarketMaker
